import Mathlib

/-!
Verification of the book-recommendation backend (FastAPI + Redis cache-aside
layer).  The definitions below are a shallow embedding of the Python sources:

* `src/backend/cache_service.py` — the cache-aside layer over Redis
  (`_get_cache`, `_set_cache`, `_delete_cache`, the public wrappers,
  `get_cache_stats`, `clear_all_cache`);
* `src/main.py` — the recommendation engine (`get_recommendations`), the
  `GET /recommend/{book_id}` handler (`recommend`) and the startup cache
  warmer (`startup_event`);
* `src/backend/books.py` — the catalog CRUD handlers (`fetch_books`,
  `add_book`, `delete_book`, `update_book`).

Modelling conventions:

* Redis is a single key/value store.  The keys actually used by the code are
  finitely many shapes, so they are modelled by the inductive `CacheKey`
  (each constructor corresponds to one literal prefix of the Python file).
  The hit/miss counters live in the same store (`stats:cache:hits`,
  `stats:cache:misses`), exactly as in Redis, which is what makes `flushdb`
  reset them.
* Values are JSON documents; they are modelled by `PyVal` and stored
  deserialized.  `json.dumps` of any value is a non-empty — hence truthy —
  string, so the `if data:` test in `_get_cache` holds exactly when the key
  is present; the round trip `json.loads (json.dumps v)` is the identity for
  the payloads this service stores (dicts/lists of str/int/float).
* Entry expiry is outside the model: no claim exercises the elapse of a TTL,
  so `setex key ttl value` is modelled as storing `value` under `key` (the
  `ttl` argument is kept in the signatures but does not affect the state).
* Redis unavailability (`redis_client.is_available = False`) and Redis
  commands raising (the `except` branches) are modelled by the two booleans
  `available` and `failing` of `CacheState`; when `failing` is true every
  Redis command of an operation raises and the operation takes its `except`
  branch.
-/

namespace BookRec

/-- A JSON-serializable Python value (the payloads this service caches). -/
inductive PyVal where
  | pnull
  | pbool (b : Bool)
  | pint (n : Int)
  | pnum (q : ℚ)
  | pstr (s : String)
  | plist (l : List PyVal)
  | pdict (l : List (String × PyVal))

/-- Python truthiness of a `PyVal` (`None`/`False`/`0`/`""`/`[]`/`{}` are
falsy).  Container truthiness only looks at emptiness, so no nested
recursion is needed. -/
def PyVal.truthy : PyVal → Bool
  | .pnull => false
  | .pbool b => b
  | .pint n => decide (n ≠ 0)
  | .pnum q => decide (q ≠ 0)
  | .pstr s => decide (s ≠ "")
  | .plist l => !l.isEmpty
  | .pdict l => !l.isEmpty

/-- The Redis keys used by `cache_service.py`, one constructor per literal
key prefix:
`recommendations i` = `"book:recommendations:{i}"`,
`booksList` = `"book:list:all"`,
`bookDetail i` = `"book:detail:{i}"`,
`statsHits` = `"stats:cache:hits"`,
`statsMisses` = `"stats:cache:misses"`.
The string rendering is injective, which the inductive encoding makes
definitional. -/
inductive CacheKey where
  | recommendations (book_id : Int)
  | booksList
  | bookDetail (book_id : Int)
  | statsHits
  | statsMisses
deriving DecidableEq

/-- The Redis database: an association list, most recent write first. -/
abbrev Store := List (CacheKey × PyVal)

/-- Value stored under `k`, if any (Redis `GET`). -/
def lookupStore : Store → CacheKey → Option PyVal
  | [], _ => none
  | e :: rest, k => if e.1 = k then some e.2 else lookupStore rest k

/-- Remove the entry under `k` (Redis `DEL`). -/
def eraseKey : Store → CacheKey → Store
  | [], _ => []
  | e :: rest, k => if e.1 = k then eraseKey rest k else e :: eraseKey rest k

/-- Overwrite the entry under `k` (Redis `SETEX`, expiry not modelled). -/
def setKey (s : Store) (k : CacheKey) (v : PyVal) : Store :=
  (k, v) :: eraseKey s k

/-- Redis `INCR`: an absent key is treated as 0 and becomes 1; an integer
value is incremented.  (On a non-integer value Redis raises; the states
reached by this service only ever store integers under counter keys, and
theorems that need this carry an `intCounter` hypothesis.) -/
def incrKey (s : Store) (k : CacheKey) : Store :=
  match lookupStore s k with
  | some (.pint n) => setKey s k (.pint (n + 1))
  | some _ => s
  | none => setKey s k (.pint 1)

/-- The key holds an integer if it holds anything (well-formedness of a
counter key, maintained by all reachable states). -/
def intCounter (s : Store) (k : CacheKey) : Prop :=
  ∀ v, lookupStore s k = some v → ∃ n, v = PyVal.pint n

/-- State of the Redis side of the system: `available` is
`redis_client.is_available`, `failing` means every Redis command raises
(the `except` branches run), `store` is the database contents. -/
structure CacheState where
  available : Bool
  failing : Bool
  store : Store

/-- `stats:cache:hits` read as an integer, absent = 0
(the `int(... or 0)` idiom of `get_cache_stats`). -/
def counterVal (s : Store) (k : CacheKey) : Int :=
  match lookupStore s k with
  | some (.pint n) => n
  | _ => 0

def countHits (st : CacheState) : Int := counterVal st.store .statsHits

def countMisses (st : CacheState) : Int := counterVal st.store .statsMisses

/-- Keys holding stats counters rather than cached entries. -/
def isStatsKey : CacheKey → Bool
  | .statsHits => true
  | .statsMisses => true
  | _ => false

-- =====================================================
-- cache_service.py
-- =====================================================

/-- Cache TTL settings (in seconds), from `cache_service.py`. -/
def CACHE_TTL_RECOMMENDATIONS : Int := 3600

def CACHE_TTL_BOOKS : Int := 300

def CACHE_TTL_BOOK_DETAIL : Int := 1800

/-- `_get_cache`: returns the deserialized value (or `None`) together with
the successor state.  On the available, non-raising path the hit/miss
branch tests the serialized reply, which is truthy exactly when the key is
present. -/
def _get_cache (st : CacheState) (key : CacheKey) : Option PyVal × CacheState :=
  if !st.available then (none, st)
  else if st.failing then (none, st)
  else
    match lookupStore st.store key with
    | some v => (some v, { st with store := incrKey st.store .statsHits })
    | none => (none, { st with store := incrKey st.store .statsMisses })

/-- `_set_cache`: best-effort write; returns whether the write happened. -/
def _set_cache (st : CacheState) (key : CacheKey) (value : PyVal) (_ttl : Int) :
    Bool × CacheState :=
  if !st.available then (false, st)
  else if st.failing then (false, st)
  else (true, { st with store := setKey st.store key value })

/-- `_delete_cache`: best-effort delete; returns whether it ran. -/
def _delete_cache (st : CacheState) (key : CacheKey) : Bool × CacheState :=
  if !st.available then (false, st)
  else if st.failing then (false, st)
  else (true, { st with store := eraseKey st.store key })

def get_cached_recommendations (st : CacheState) (book_id : Int) :
    Option PyVal × CacheState :=
  _get_cache st (.recommendations book_id)

def set_cached_recommendations (st : CacheState) (book_id : Int) (data : PyVal)
    (ttl : Int := CACHE_TTL_RECOMMENDATIONS) : Bool × CacheState :=
  _set_cache st (.recommendations book_id) data ttl

def invalidate_recommendations (st : CacheState) (book_id : Int) :
    Bool × CacheState :=
  _delete_cache st (.recommendations book_id)

def get_cached_books (st : CacheState) : Option PyVal × CacheState :=
  _get_cache st .booksList

def set_cached_books (st : CacheState) (data : PyVal)
    (ttl : Int := CACHE_TTL_BOOKS) : Bool × CacheState :=
  _set_cache st .booksList data ttl

def invalidate_books_list (st : CacheState) : Bool × CacheState :=
  _delete_cache st .booksList

def get_cached_book_detail (st : CacheState) (book_id : Int) :
    Option PyVal × CacheState :=
  _get_cache st (.bookDetail book_id)

def set_cached_book_detail (st : CacheState) (book_id : Int) (data : PyVal)
    (ttl : Int := CACHE_TTL_BOOK_DETAIL) : Bool × CacheState :=
  _set_cache st (.bookDetail book_id) data ttl

/-- Result dictionary of `get_cache_stats`, one constructor per `return`
of the Python function (the `unavailable` dict carries the literal zeros of
the source). -/
inductive CacheStats where
  | unavailable
  | errored
  | available (hits misses total_requests : Int) (hit_rate : ℚ)
deriving DecidableEq

/-- Python's `round(x, 2)` modelled on rationals: round to the nearest
multiple of 1/100.  (Python rounds a float, with ties to even; no input
appearing in this development is a tie, where the two agree.) -/
def pyRound2 (x : ℚ) : ℚ := (round (x * 100) : ℤ) / 100

/-- `get_cache_stats` from `cache_service.py`: note the reported
`hit_rate` is a *percentage* (`hits / total * 100`) rounded to two decimal
places. -/
def get_cache_stats (st : CacheState) : CacheStats :=
  if !st.available then .unavailable
  else if st.failing then .errored
  else
    let hits := counterVal st.store .statsHits
    let misses := counterVal st.store .statsMisses
    let total := hits + misses
    let hit_rate : ℚ := if total > 0 then pyRound2 ((hits : ℚ) / (total : ℚ) * 100) else 0
    .available hits misses total hit_rate

/-- `clear_all_cache`: Redis `FLUSHDB` — wipes every key, the stats
counters included (they live in the same database). -/
def clear_all_cache (st : CacheState) : Bool × CacheState :=
  if !st.available then (false, st)
  else if st.failing then (false, st)
  else (true, { st with store := [] })

/-- `get_all_cache_keys`: Redis `KEYS *`. -/
def get_all_cache_keys (st : CacheState) : List CacheKey :=
  if !st.available then []
  else if st.failing then []
  else st.store.map (·.1)

-- =====================================================
-- main.py : recommendation engine
-- =====================================================

/-- One row of `books_df` (`models/books_df.pkl`), with the columns
`get_recommendations` and the warmer read.  The TF-IDF feature vector is
not carried here; the pairwise cosine distances it induces enter the model
as the `d` parameter below. -/
structure Book where
  book_id : Int
  title : String
  original_title : String
  authors : String
  original_publication_year : Int
  average_rating : ℚ
  ratings_count : Int
  image_url : String
deriving Inhabited

/-- The `book_id` column, in row order (`books_df["book_id"].values`). -/
def bookIds (books : List Book) : List Int := books.map (·.book_id)

/-- `books_df.index[books_df["book_id"] == b][0]`: position of the first
row whose `book_id` is `b`; `none` exactly when
`b not in books_df["book_id"].values`. -/
def rowOf (books : List Book) (b : Int) : Option Nat :=
  match books with
  | [] => none
  | bk :: rest => if bk.book_id = b then some 0 else (rowOf rest b).map (· + 1)

/-- Neighbor ordering used by the nearest-neighbor search: row `i` before
row `j` when `i` is strictly closer to the query row `q` under the distance
function `d`, ties broken by row position (insertion order, stable). -/
def neighborLE (d : Nat → Nat → ℚ) (q i j : Nat) : Prop :=
  d q i < d q j ∨ (d q i = d q j ∧ i ≤ j)

instance (d : Nat → Nat → ℚ) (q : Nat) : DecidableRel (neighborLE d q) := fun i j => by
  unfold neighborLE; infer_instance

instance (d : Nat → Nat → ℚ) (q : Nat) : IsTotal Nat (neighborLE d q) where
  total i j := by
    rcases lt_trichotomy (d q i) (d q j) with h | h | h
    · exact Or.inl (Or.inl h)
    · rcases le_total i j with hij | hij
      · exact Or.inl (Or.inr ⟨h, hij⟩)
      · exact Or.inr (Or.inr ⟨h.symm, hij⟩)
    · exact Or.inr (Or.inl h)

instance (d : Nat → Nat → ℚ) (q : Nat) : IsTrans Nat (neighborLE d q) where
  trans i j k := by
    rintro (h₁ | ⟨h₁, h₁'⟩) (h₂ | ⟨h₂, h₂'⟩)
    · exact Or.inl (h₁.trans h₂)
    · exact Or.inl (h₂ ▸ h₁)
    · exact Or.inl (h₁ ▸ h₂)
    · exact Or.inr ⟨h₁.trans h₂, h₁'.trans h₂'⟩

/-- `sklearn.neighbors.NearestNeighbors.kneighbors` on a corpus of `m`
fitted vectors, queried with the vector of row `q`, returning the row
positions of the `k` nearest vectors in ascending distance order.  When
`k > m` sklearn raises `ValueError: Expected n_neighbors <= n_samples_fit`,
modelled as `none`. -/
def kneighbors (d : Nat → Nat → ℚ) (m q k : Nat) : Option (List Nat) :=
  if k ≤ m then some (((List.range m).insertionSort (neighborLE d q)).take k)
  else none

/-- Failure modes of `get_recommendations`:
`httpNotFound` is the explicit `HTTPException(404, "Book not found")`;
`kneighborsError` is the sklearn `ValueError` raised by `kneighbors` when
`n_neighbors` exceeds the corpus size (unhandled, hence a 500 to the
client). -/
inductive RecErr where
  | httpNotFound
  | kneighborsError
deriving DecidableEq

/-- The recommendation dict built for one neighbor row in
`get_recommendations`. -/
def bookToPy (bk : Book) : PyVal :=
  .pdict [("book_id", .pint bk.book_id),
          ("title", .pstr bk.title),
          ("original_title", .pstr bk.original_title),
          ("authors", .pstr bk.authors),
          ("year", .pint bk.original_publication_year),
          ("rating", .pnum bk.average_rating),
          ("ratings_count", .pint bk.ratings_count),
          ("image_url", .pstr bk.image_url)]

/-- The `"book_id"` field of a recommendation dict. -/
def recBookId (v : PyVal) : Option Int :=
  match v with
  | .pdict l =>
    match l.lookup "book_id" with
    | some (.pint i) => some i
    | _ => none
  | _ => none

/-- `get_recommendations(book_id, n=10)` from `main.py`: membership check
(404 on failure), k-nearest-neighbor query with `n_neighbors = n + 1`, drop
of the first returned row (the queried book itself), and join of every
remaining row back to its display attributes. -/
def get_recommendations (books : List Book) (d : Nat → Nat → ℚ) (book_id : Int)
    (n : Nat := 10) : Except RecErr (List PyVal) :=
  match rowOf books book_id with
  | none => .error .httpNotFound
  | some idx =>
    match kneighbors d books.length idx (n + 1) with
    | none => .error .kneighborsError
    | some indices =>
      let rec_indices := indices.tail
      .ok (rec_indices.map (fun i => bookToPy (books.getD i default)))

/-- The response dict of `GET /recommend/{book_id}` (also the warmer's
cached payload). -/
def recResult (book_id : Int) (recommendations : List PyVal) : PyVal :=
  .pdict [("book_id", .pint book_id), ("recommendations", .plist recommendations)]

/-- Outcome of one `recommend` call: HTTP result, successor cache state,
and whether `get_recommendations` was invoked (the spec's `compute_fn`
call counter). -/
structure RecOutcome where
  result : Except RecErr PyVal
  state : CacheState
  computed : Bool

/-- The cache-miss path of `recommend`: compute the recommendations, build
the response dict, store it, return it.  An exception from
`get_recommendations` propagates and no cache write happens. -/
def recommendCompute (books : List Book) (d : Nat → Nat → ℚ) (st1 : CacheState)
    (book_id : Int) : RecOutcome :=
  match get_recommendations books d book_id 10 with
  | .error e => { result := .error e, state := st1, computed := true }
  | .ok recs =>
    { result := .ok (recResult book_id recs)
      state := (set_cached_recommendations st1 book_id (recResult book_id recs)).2
      computed := true }

/-- `GET /recommend/{book_id}` from `main.py`, instrumented with the
compute counter.  `if cached_result:` returns the cached value exactly when
the read produced a truthy value; a falsy or absent value falls through to
the compute-and-store path. -/
def recommendAux (books : List Book) (d : Nat → Nat → ℚ) (st : CacheState)
    (book_id : Int) : RecOutcome :=
  match get_cached_recommendations st book_id with
  | (some v, st1) =>
    if v.truthy then { result := .ok v, state := st1, computed := false }
    else recommendCompute books d st1 book_id
  | (none, st1) => recommendCompute books d st1 book_id

/-- The externally visible behavior of `GET /recommend/{book_id}`. -/
def recommend (books : List Book) (d : Nat → Nat → ℚ) (st : CacheState)
    (book_id : Int) : Except RecErr PyVal × CacheState :=
  let o := recommendAux books d st book_id
  (o.result, o.state)

-- =====================================================
-- main.py : startup cache warming
-- =====================================================

/-- Descending order on `ratings_count` (the order behind
`books_df.nlargest(10, "ratings_count")`). -/
def byRatingsCount (b b' : Book) : Prop := b'.ratings_count ≤ b.ratings_count

instance : DecidableRel byRatingsCount := fun b b' => by
  unfold byRatingsCount; infer_instance

instance : IsTotal Book byRatingsCount where
  total b b' := le_total b'.ratings_count b.ratings_count

instance : IsTrans Book byRatingsCount where
  trans _ _ _ h h' := le_trans h' h

/-- `books_df.nlargest(10, "ratings_count")`: the first 10 rows of the
stable descending sort by `ratings_count` (pandas `keep="first"`). -/
def nlargest10 (books : List Book) : List Book :=
  (books.insertionSort byRatingsCount).take 10

/-- The body of the per-book loop of `startup_event`: compute and cache one
book's recommendations, skipping the book (state unchanged) when the
computation raises.  The stored payload is built by the same
`get_recommendations` / `set_cached_recommendations` pair the live
`recommend` handler uses. -/
def warm_one (books : List Book) (d : Nat → Nat → ℚ) (st : CacheState)
    (bk : Book) : CacheState :=
  match get_recommendations books d bk.book_id 10 with
  | .error _ => st
  | .ok recs => (set_cached_recommendations st bk.book_id (recResult bk.book_id recs)).2

/-- `startup_event` from `main.py`: warm the cache with the top-10 books by
`ratings_count` when Redis is available; skip warming entirely otherwise. -/
def startup_event (books : List Book) (d : Nat → Nat → ℚ) (st : CacheState) :
    CacheState :=
  if st.available then (nlargest10 books).foldl (warm_one books d) st
  else st

-- =====================================================
-- backend/books.py : catalog CRUD
-- =====================================================

/-- A row of the relational `books` table as the CRUD handlers see it:
the integer primary key plus the named columns (column name ↦ value). -/
structure DbBook where
  id : Int
  fields : List (String × PyVal)

/-- The dict built from one fetched row (`dict(r)` over the six selected
columns). -/
def dbRowToPy (r : DbBook) : PyVal :=
  .pdict (("id", .pint r.id) :: r.fields)

/-- HTTP error raised by a catalog handler.  `serverError` also covers the
quirk of `delete_book`/`update_book`: their `HTTPException(404)` for a
missing row is raised inside the `try`, caught by `except Exception`, and
re-raised as a 500. -/
inductive ApiErr where
  | badRequest (detail : String)
  | serverError (detail : String)
deriving DecidableEq

/-- The field list validated by `add_book` and `update_book`. -/
def REQUIRED_FIELDS : List String :=
  ["title", "authors", "original_publication_year", "average_rating", "image_url"]

/-- `GET /books` (`fetch_books`): cached read of the book-list snapshot;
`if cached_books:` serves the cached value only when it is truthy, so a
cached empty list falls through to the database query and the cache
rewrite. -/
def fetch_books (st : CacheState) (db : List DbBook) : PyVal × CacheState :=
  match get_cached_books st with
  | (some v, st1) =>
    if v.truthy then (v, st1)
    else (PyVal.plist (db.map dbRowToPy),
      (set_cached_books st1 (PyVal.plist (db.map dbRowToPy))).2)
  | (none, st1) =>
    (PyVal.plist (db.map dbRowToPy),
      (set_cached_books st1 (PyVal.plist (db.map dbRowToPy))).2)

/-- `POST /books` (`add_book`): validates the five required fields, then
only appends a row to `books.csv` (writing the header first when the file
does not yet exist).  It touches neither the database nor the cache.  The
CSV file is modelled as `none` (absent) or the list of its rows; cell
rendering by `csv.writer` is not modelled. -/
def add_book (cache : CacheState) (file : Option (List (List PyVal)))
    (book : List (String × PyVal)) :
    Except ApiErr (PyVal × CacheState × List (List PyVal)) :=
  match REQUIRED_FIELDS.find? (fun f => (book.lookup f).isNone) with
  | some f => .error (.badRequest ("Missing field: " ++ f))
  | none =>
    let prev := match file with
      | some rows => rows
      | none => [REQUIRED_FIELDS.map PyVal.pstr]
    let row := REQUIRED_FIELDS.map (fun f => (book.lookup f).getD .pnull)
    .ok (.pdict [("message", .pstr "Book processed for ML CSV")], cache, prev ++ [row])

/-- `DELETE /books/{book_id}` (`delete_book`): SQL delete by primary key;
`rowcount == 0` raises (surfacing as a 500, see `ApiErr`); on success the
book-list snapshot is invalidated. -/
def delete_book (st : CacheState) (db : List DbBook) (book_id : Int) :
    Except ApiErr (PyVal × CacheState × List DbBook) :=
  let matched := db.filter (fun r => decide (r.id = book_id))
  if matched.isEmpty then .error (.serverError "404: Book not found")
  else
    let db' := db.filter (fun r => decide (r.id ≠ book_id))
    .ok (.pdict [("message", .pstr "Book deleted successfully")],
         (invalidate_books_list st).2, db')

/-- `PUT /books/{book_id}` (`update_book`): validates the five required
fields, SQL update by primary key (`rowcount == 0` again surfacing as a
500); on success the book-list snapshot is invalidated. -/
def update_book (st : CacheState) (db : List DbBook) (book_id : Int)
    (payload : List (String × PyVal)) :
    Except ApiErr (PyVal × CacheState × List DbBook) :=
  match REQUIRED_FIELDS.find? (fun f => (payload.lookup f).isNone) with
  | some f => .error (.badRequest ("Missing field: " ++ f))
  | none =>
    let matched := db.filter (fun r => decide (r.id = book_id))
    if matched.isEmpty then .error (.serverError "404: Book not found")
    else
      let db' := db.map (fun r =>
        if r.id = book_id then
          { r with fields := REQUIRED_FIELDS.map (fun f => (f, (payload.lookup f).getD .pnull)) }
        else r)
      .ok (.pdict [("message", .pstr "Book updated successfully")],
           (invalidate_books_list st).2, db')

-- =====================================================
-- Store lemmas
-- =====================================================

theorem lookup_setKey_self (s : Store) (k : CacheKey) (v : PyVal) :
    lookupStore (setKey s k v) k = some v := by
  simp [lookupStore, setKey]

theorem lookup_eraseKey_ne (s : Store) {k k' : CacheKey} (h : k' ≠ k) :
    lookupStore (eraseKey s k) k' = lookupStore s k' := by
  induction s with
  | nil => rfl
  | cons a rest ih =>
    by_cases ha : a.1 = k
    · have ha' : a.1 ≠ k' := fun hc => h (hc.symm.trans ha)
      rw [eraseKey, if_pos ha, ih, lookupStore, if_neg ha']
    · by_cases ha' : a.1 = k'
      · rw [eraseKey, if_neg ha, lookupStore, if_pos ha', lookupStore, if_pos ha']
      · rw [eraseKey, if_neg ha, lookupStore, if_neg ha', ih, lookupStore, if_neg ha']

theorem lookup_setKey_ne (s : Store) {k k' : CacheKey} (v : PyVal) (h : k' ≠ k) :
    lookupStore (setKey s k v) k' = lookupStore s k' := by
  rw [setKey, lookupStore, if_neg (fun hc : k = k' => h hc.symm), lookup_eraseKey_ne s h]

theorem lookup_eraseKey_self (s : Store) (k : CacheKey) :
    lookupStore (eraseKey s k) k = none := by
  induction s with
  | nil => rfl
  | cons a rest ih =>
    by_cases ha : a.1 = k
    · rw [eraseKey, if_pos ha]; exact ih
    · rw [eraseKey, if_neg ha, lookupStore, if_neg ha]; exact ih

theorem lookup_incrKey_ne (s : Store) {k k' : CacheKey} (h : k' ≠ k) :
    lookupStore (incrKey s k) k' = lookupStore s k' := by
  unfold incrKey
  cases hv : lookupStore s k with
  | none => simp [lookup_setKey_ne s _ h]
  | some v => cases v <;> simp [lookup_setKey_ne s _ h]

theorem counterVal_incrKey_self (s : Store) (k : CacheKey) (h : intCounter s k) :
    counterVal (incrKey s k) k = counterVal s k + 1 := by
  unfold incrKey
  cases hv : lookupStore s k with
  | none => simp [counterVal, lookup_setKey_self, hv]
  | some v =>
    obtain ⟨n, rfl⟩ := h v hv
    simp [counterVal, lookup_setKey_self, hv]

theorem counterVal_congr {s s' : Store} (k : CacheKey)
    (h : lookupStore s' k = lookupStore s k) : counterVal s' k = counterVal s k := by
  unfold counterVal
  rw [h]

theorem intCounter_incrKey_self (s : Store) (k : CacheKey) (h : intCounter s k) :
    intCounter (incrKey s k) k := by
  unfold incrKey
  cases hv : lookupStore s k with
  | none => intro v hv'; rw [lookup_setKey_self] at hv'; exact ⟨1, (Option.some_inj.mp hv').symm⟩
  | some v =>
    obtain ⟨n, rfl⟩ := h v hv
    intro w hw; rw [lookup_setKey_self] at hw; exact ⟨n + 1, (Option.some_inj.mp hw).symm⟩

theorem intCounter_congr {s s' : Store} (k : CacheKey)
    (h : lookupStore s' k = lookupStore s k) (hc : intCounter s k) : intCounter s' k := by
  intro v hv
  exact hc v (h ▸ hv)

-- =====================================================
-- Cache-operation unfolding lemmas
-- =====================================================

theorem _get_cache_unavail {st : CacheState} (k : CacheKey) (h : st.available = false) :
    _get_cache st k = (none, st) := by
  simp [_get_cache, h]

theorem _get_cache_failing {st : CacheState} (k : CacheKey)
    (ha : st.available = true) (h : st.failing = true) :
    _get_cache st k = (none, st) := by
  simp [_get_cache, ha, h]

theorem _get_cache_hit {st : CacheState} {k : CacheKey} {v : PyVal}
    (ha : st.available = true) (hf : st.failing = false)
    (hk : lookupStore st.store k = some v) :
    _get_cache st k = (some v, { st with store := incrKey st.store .statsHits }) := by
  simp [_get_cache, ha, hf, hk]

theorem _get_cache_miss {st : CacheState} {k : CacheKey}
    (ha : st.available = true) (hf : st.failing = false)
    (hk : lookupStore st.store k = none) :
    _get_cache st k = (none, { st with store := incrKey st.store .statsMisses }) := by
  simp [_get_cache, ha, hf, hk]

theorem _set_cache_unavail {st : CacheState} (k : CacheKey) (v : PyVal) (ttl : Int)
    (h : st.available = false) : _set_cache st k v ttl = (false, st) := by
  simp [_set_cache, h]

theorem _set_cache_failing {st : CacheState} (k : CacheKey) (v : PyVal) (ttl : Int)
    (ha : st.available = true) (h : st.failing = true) :
    _set_cache st k v ttl = (false, st) := by
  simp [_set_cache, ha, h]

theorem _set_cache_ok {st : CacheState} (k : CacheKey) (v : PyVal) (ttl : Int)
    (ha : st.available = true) (hf : st.failing = false) :
    _set_cache st k v ttl = (true, { st with store := setKey st.store k v }) := by
  simp [_set_cache, ha, hf]

theorem _delete_cache_ok {st : CacheState} (k : CacheKey)
    (ha : st.available = true) (hf : st.failing = false) :
    _delete_cache st k = (true, { st with store := eraseKey st.store k }) := by
  simp [_delete_cache, ha, hf]

-- =====================================================
-- rowOf lemmas
-- =====================================================

theorem rowOf_lt {books : List Book} {B : Int} {idx : Nat}
    (h : rowOf books B = some idx) : idx < books.length := by
  induction books generalizing idx with
  | nil => simp [rowOf] at h
  | cons bk rest ih =>
    by_cases hb : bk.book_id = B
    · simp [rowOf, hb] at h
      simp only [List.length_cons]
      omega
    · simp [rowOf, hb] at h
      obtain ⟨j, hj, rfl⟩ := h
      have := ih hj
      simp only [List.length_cons]
      omega

theorem rowOf_eq_none_iff {books : List Book} {B : Int} :
    rowOf books B = none ↔ B ∉ bookIds books := by
  induction books with
  | nil => simp [rowOf, bookIds]
  | cons bk rest ih =>
    by_cases hb : bk.book_id = B
    · simp [rowOf, hb, bookIds]
    · simp [rowOf, hb, bookIds, Option.map_eq_none'] at ih ⊢
      exact ⟨fun h => ⟨fun he => hb he.symm, ih.mp h⟩, fun h => ih.mpr h.2⟩

theorem rowOf_get? {books : List Book} {B : Int} {idx : Nat}
    (h : rowOf books B = some idx) :
    ∃ bk, books.get? idx = some bk ∧ bk.book_id = B := by
  induction books generalizing idx with
  | nil => simp [rowOf] at h
  | cons bk rest ih =>
    by_cases hb : bk.book_id = B
    · simp [rowOf, hb] at h
      subst h
      exact ⟨bk, rfl, hb⟩
    · simp [rowOf, hb] at h
      obtain ⟨j, hj, rfl⟩ := h
      simpa [List.get?] using ih hj

theorem rowOf_unique {books : List Book} {B : Int} {idx : Nat}
    (hnd : (bookIds books).Nodup) (h : rowOf books B = some idx) :
    ∀ j bk, books.get? j = some bk → bk.book_id = B → j = idx := by
  induction books generalizing idx with
  | nil => simp [rowOf] at h
  | cons bk0 rest ih =>
    have hnd' := hnd
    rw [bookIds, List.map_cons, List.nodup_cons] at hnd'
    obtain ⟨hnotin, hndrest⟩ := hnd'
    intro j bk hj hB
    by_cases hb : bk0.book_id = B
    · simp [rowOf, hb] at h
      subst h
      match j, hj with
      | 0, hj => rfl
      | j' + 1, hj =>
        exfalso
        apply hnotin
        rw [hb, ← hB]
        have : bk ∈ rest := List.get?_mem hj
        exact List.mem_map.mpr ⟨bk, this, rfl⟩
    · simp [rowOf, hb] at h
      obtain ⟨i, hi, rfl⟩ := h
      match j, hj with
      | 0, hj =>
        exfalso
        exact hb (by simpa using congrArg (fun o => (o.getD default).book_id) hj ▸ hB)
      | j' + 1, hj =>
        have : j' = i := ih hndrest hi j' bk (by simpa [List.get?] using hj) hB
        omega

-- =====================================================
-- Nearest-neighbor search lemmas
-- =====================================================

/-- When the query row is strictly closer to itself than every other row,
the sorted neighbor list starts with the query row, followed by `m - 1`
distinct other rows. -/
theorem sortedRange_head (d : Nat → Nat → ℚ) {m idx : Nat} (hm : idx < m)
    (hd : ∀ j, j < m → j ≠ idx → d idx idx < d idx j) :
    ∃ xs, (List.range m).insertionSort (neighborLE d idx) = idx :: xs ∧
      xs.length = m - 1 ∧ ∀ j ∈ xs, j < m ∧ j ≠ idx := by
  have hperm :
      List.Perm ((List.range m).insertionSort (neighborLE d idx)) (List.range m) :=
    List.perm_insertionSort _ _
  have hlen : ((List.range m).insertionSort (neighborLE d idx)).length = m := by
    rw [hperm.length_eq, List.length_range]
  have hnd : ((List.range m).insertionSort (neighborLE d idx)).Nodup :=
    hperm.nodup_iff.mpr (List.nodup_range m)
  have hsorted :
      List.Sorted (neighborLE d idx) ((List.range m).insertionSort (neighborLE d idx)) :=
    List.sorted_insertionSort _ _
  obtain ⟨y, ys, hL⟩ :
      ∃ y ys, (List.range m).insertionSort (neighborLE d idx) = y :: ys := by
    cases hc : (List.range m).insertionSort (neighborLE d idx) with
    | nil => rw [hc] at hlen; simp at hlen; omega
    | cons a as => exact ⟨a, as, rfl⟩
  have hmemL : ∀ {j : Nat}, j ∈ y :: ys ↔ j < m := by
    intro j
    rw [← hL, hperm.mem_iff, List.mem_range]
  rw [hL] at hnd hsorted hlen
  have hy : y = idx := by
    by_contra hne
    have hidxmem : idx ∈ y :: ys := hmemL.mpr hm
    have hidxtail : idx ∈ ys := by
      cases List.mem_cons.mp hidxmem with
      | inl h => exact absurd h.symm hne
      | inr h => exact h
    have hr : neighborLE d idx y idx := (List.pairwise_cons.mp hsorted).1 idx hidxtail
    have hym : y < m := hmemL.mp (List.mem_cons_self _ _)
    have hlt : d idx idx < d idx y := hd y hym hne
    rcases hr with h | ⟨h, _⟩
    · exact absurd hlt (lt_asymm h)
    · exact absurd h (ne_of_gt hlt)
  subst hy
  refine ⟨ys, hL, by simp at hlen; omega, ?_⟩
  intro j hj
  have hjm : j < m := hmemL.mp (List.mem_cons_of_mem _ hj)
  have hjne : j ≠ y := by
    intro hc
    subst hc
    exact (List.nodup_cons.mp hnd).1 hj
  exact ⟨hjm, hjne⟩

/-- The `"book_id"` field of a formatted recommendation is the neighbor's
`book_id`. -/
theorem recBookId_bookToPy (bk : Book) : recBookId (bookToPy bk) = some bk.book_id := rfl

theorem get?_getD {l : List Book} {j : Nat} (h : j < l.length) :
    l.get? j = some (l.getD j default) := by
  induction l generalizing j with
  | nil => simp at h
  | cons a rest ih =>
    cases j with
    | zero => rfl
    | succ j' =>
      have : j' < rest.length := by simp at h; omega
      simpa [List.get?, List.getD] using ih this

-- =====================================================
-- Concrete corpora for witnesses and counterexamples
-- =====================================================

/-- A concrete distance function: `|j - q|` (computed with truncated `Nat`
subtraction), so the query row is always the unique closest row. -/
def exDist : Nat → Nat → ℚ := fun q j => (((j - q) + (q - j) : ℕ) : ℚ)

def mkBook (i rc : Int) : Book :=
  { book_id := i, title := "", original_title := "", authors := "",
    original_publication_year := 0, average_rating := 0, ratings_count := rc,
    image_url := "" }

/-- A 5-book similarity index (the spec's example scenario `{1,2,3,4,5}`). -/
def exBooks5 : List Book :=
  [mkBook 1 50, mkBook 2 40, mkBook 3 30, mkBook 4 20, mkBook 5 10]

/-- A 12-book similarity index, large enough for the default `n = 10`. -/
def exBooks12 : List Book :=
  [mkBook 1 120, mkBook 2 110, mkBook 3 100, mkBook 4 90, mkBook 5 80,
   mkBook 6 70, mkBook 7 60, mkBook 8 50, mkBook 9 40, mkBook 10 30,
   mkBook 11 20, mkBook 12 10]

/-- The recommendation list the engine computes for book 1 over
`exBooks12`. -/
def exRecs12 : List PyVal :=
  (get_recommendations exBooks12 exDist 1 10).toOption.getD []

/-- Redis up, no failures, empty database. -/
def emptyAvailState : CacheState := { available := true, failing := false, store := [] }

/-- Redis unavailable (connection failed at startup), empty database. -/
def cacheDownState : CacheState := { available := false, failing := false, store := [] }

-- =====================================================
-- C1
-- =====================================================

/-- C1, counterexample: with the 5-book index `{1,2,3,4,5}`, a request for
`n = 10` neighbors of book 1 does not return the 4 other books — it fails:
`kneighbors` is called with `n_neighbors = 11 > 5` fitted samples, and
sklearn raises `ValueError: Expected n_neighbors <= n_samples_fit`. -/
theorem c1_counterexample :
    get_recommendations exBooks5 exDist 1 10 = Except.error RecErr.kneighborsError := rfl

/-- C1, amended: for a book `B` at row `idx` of an index with pairwise
distinct ids, with every other row at strictly greater distance than the
query row itself, `get_recommendations(B, n)` returns exactly `n`
recommendations excluding `B` whenever `n + 1 ≤` the index size; when
`n + 1` exceeds the index size the call fails with the sklearn error
instead of returning the fewer available books. -/
theorem c1_amended (books : List Book) (d : Nat → Nat → ℚ) (B : Int) (n idx : Nat)
    (hids : (bookIds books).Nodup)
    (hrow : rowOf books B = some idx)
    (hd : ∀ j, j < books.length → j ≠ idx → d idx idx < d idx j) :
    (n + 1 ≤ books.length →
      ∃ recs, get_recommendations books d B n = .ok recs ∧
        recs.length = n ∧ ∀ v ∈ recs, recBookId v ≠ some B) ∧
    (books.length < n + 1 →
      get_recommendations books d B n = .error .kneighborsError) := by
  constructor
  · intro hn
    have hm : idx < books.length := rowOf_lt hrow
    obtain ⟨xs, hL, hlen, hmem⟩ := sortedRange_head d hm hd
    have hrun : get_recommendations books d B n =
        .ok ((xs.take n).map (fun i => bookToPy (books.getD i default))) := by
      simp only [get_recommendations, hrow, kneighbors, hL, if_pos hn,
        List.take_succ_cons, List.tail_cons]
    refine ⟨_, hrun, ?_, ?_⟩
    · rw [List.length_map, List.length_take, min_eq_left (by omega)]
    · intro v hv
      rw [List.mem_map] at hv
      obtain ⟨j, hj, rfl⟩ := hv
      have hjxs : j ∈ xs := List.take_subset _ _ hj
      obtain ⟨hjm, hjne⟩ := hmem j hjxs
      rw [recBookId_bookToPy]
      intro hc
      have hcB : (books.getD j default).book_id = B := Option.some_inj.mp hc
      exact hjne (rowOf_unique hids hrow j _ (get?_getD hjm) hcB)
  · intro hlt
    simp only [get_recommendations, hrow, kneighbors,
      if_neg (by omega : ¬ (n + 1 ≤ books.length))]

/-- C1, witness: over the 5-book index, `n = 3` for book 1 succeeds with
exactly 3 recommendations, none of them book 1. -/
theorem c1_witness :
    (3 + 1 ≤ exBooks5.length →
      ∃ recs, get_recommendations exBooks5 exDist 1 3 = .ok recs ∧
        recs.length = 3 ∧ ∀ v ∈ recs, recBookId v ≠ some 1) ∧
    (exBooks5.length < 3 + 1 →
      get_recommendations exBooks5 exDist 1 3 = .error .kneighborsError) :=
  c1_amended exBooks5 exDist 1 3 0 (by decide) (by decide) (by decide)

-- =====================================================
-- recommend-endpoint lemmas
-- =====================================================

theorem recommendAux_hit {books : List Book} {d : Nat → Nat → ℚ} {st st1 : CacheState}
    {B : Int} {v : PyVal}
    (hget : get_cached_recommendations st B = (some v, st1))
    (hv : v.truthy = true) :
    recommendAux books d st B = { result := .ok v, state := st1, computed := false } := by
  unfold recommendAux
  rw [hget]
  simp [hv]

theorem recommendAux_miss {books : List Book} {d : Nat → Nat → ℚ} {st st1 : CacheState}
    {B : Int}
    (hget : get_cached_recommendations st B = (none, st1)) :
    recommendAux books d st B = recommendCompute books d st1 B := by
  unfold recommendAux
  rw [hget]

theorem recommendAux_falsy {books : List Book} {d : Nat → Nat → ℚ} {st st1 : CacheState}
    {B : Int} {v : PyVal}
    (hget : get_cached_recommendations st B = (some v, st1))
    (hv : v.truthy = false) :
    recommendAux books d st B = recommendCompute books d st1 B := by
  unfold recommendAux
  rw [hget]
  simp [hv]

theorem recommendCompute_ok {books : List Book} {d : Nat → Nat → ℚ} {st1 : CacheState}
    {B : Int} {recs : List PyVal}
    (hcomp : get_recommendations books d B 10 = .ok recs) :
    recommendCompute books d st1 B =
      { result := .ok (recResult B recs)
        state := (set_cached_recommendations st1 B (recResult B recs)).2
        computed := true } := by
  unfold recommendCompute
  rw [hcomp]

theorem recommendCompute_err {books : List Book} {d : Nat → Nat → ℚ} {st1 : CacheState}
    {B : Int} {e : RecErr}
    (hcomp : get_recommendations books d B 10 = .error e) :
    recommendCompute books d st1 B =
      { result := .error e, state := st1, computed := true } := by
  unfold recommendCompute
  rw [hcomp]

/-- `get_recommendations` raises the 404 `HTTPException` exactly when the
book id is absent from the loaded index. -/
theorem get_recommendations_notFound_iff (books : List Book) (d : Nat → Nat → ℚ)
    (B : Int) (n : Nat) :
    get_recommendations books d B n = .error .httpNotFound ↔ B ∉ bookIds books := by
  unfold get_recommendations
  cases hr : rowOf books B with
  | none =>
    simp [rowOf_eq_none_iff.mp hr]
  | some idx =>
    have hB : B ∈ bookIds books := by
      by_contra hB
      rw [← rowOf_eq_none_iff, hr] at hB
      cases hB
    cases hk : kneighbors d books.length idx (n + 1) with
    | none => simp [hk, hB]
    | some l => simp [hk, hB]

theorem recommendCompute_notFound_iff (books : List Book) (d : Nat → Nat → ℚ)
    (st1 : CacheState) (B : Int) :
    (recommendCompute books d st1 B).result = .error .httpNotFound ↔ B ∉ bookIds books := by
  unfold recommendCompute
  cases hc : get_recommendations books d B 10 with
  | error e =>
    constructor
    · intro h
      simp only at h
      have he : e = .httpNotFound := by
        injection h with h'
      rw [he] at hc
      exact (get_recommendations_notFound_iff books d B 10).mp hc
    · intro hB
      have := (get_recommendations_notFound_iff books d B 10).mpr hB
      rw [hc] at this
      injection this with h'
      simp [h']
  | ok recs =>
    have hB : B ∈ bookIds books := by
      by_contra hB
      have := (get_recommendations_notFound_iff books d B 10).mpr hB
      rw [hc] at this
      cases this
    simp [hB]

theorem key_ne_statsHits {k : CacheKey} (hk : isStatsKey k = false) :
    k ≠ .statsHits := by
  intro hc
  rw [hc] at hk
  simp [isStatsKey] at hk

theorem key_ne_statsMisses {k : CacheKey} (hk : isStatsKey k = false) :
    k ≠ .statsMisses := by
  intro hc
  rw [hc] at hk
  simp [isStatsKey] at hk

-- =====================================================
-- C2
-- =====================================================

/-- C2, confirmed: provided every cached recommendation entry belongs to a
book id present in the loaded index (an invariant of all states this
service can reach, since entries are only written after a successful
computation), `GET /recommend/{book_id}` fails with the 404 `NotFound`
error exactly when `book_id` is absent from the index, and on that failure
no cache entry is written or changed — the request leaves every non-counter
key of the store untouched (only the stats miss counter may be
incremented). -/
theorem c2_notfound_iff_and_no_write (books : List Book) (d : Nat → Nat → ℚ)
    (st : CacheState) (B : Int)
    (hinv : ∀ i : Int, (lookupStore st.store (.recommendations i)).isSome = true →
      i ∈ bookIds books) :
    ((recommend books d st B).1 = .error .httpNotFound ↔ B ∉ bookIds books) ∧
    ((recommend books d st B).1 = .error .httpNotFound →
      ∀ k, isStatsKey k = false →
        lookupStore (recommend books d st B).2.store k = lookupStore st.store k) := by
  have hcompute :
      ∀ st1 : CacheState,
        recommendAux books d st B = recommendCompute books d st1 B →
        (∀ k, isStatsKey k = false →
          lookupStore st1.store k = lookupStore st.store k) →
        ((recommend books d st B).1 = .error .httpNotFound ↔ B ∉ bookIds books) ∧
        ((recommend books d st B).1 = .error .httpNotFound →
          ∀ k, isStatsKey k = false →
            lookupStore (recommend books d st B).2.store k = lookupStore st.store k) := by
    intro st1 haux hframe
    unfold recommend
    rw [haux]
    refine ⟨recommendCompute_notFound_iff books d st1 B, ?_⟩
    unfold recommendCompute
    cases hc : get_recommendations books d B 10 with
    | error e => intro _ k hk; exact hframe k hk
    | ok recs => intro h; cases h
  by_cases ha : st.available = true
  · by_cases hf : st.failing = true
    · have hget : get_cached_recommendations st B = (none, st) :=
        _get_cache_failing _ ha hf
      exact hcompute st (recommendAux_miss hget) (fun k _ => rfl)
    · have hf' : st.failing = false := by
        cases hc : st.failing
        · rfl
        · exact absurd hc hf
      cases hl : lookupStore st.store (.recommendations B) with
      | none =>
        have hget : get_cached_recommendations st B =
            (none, { st with store := incrKey st.store .statsMisses }) :=
          _get_cache_miss ha hf' hl
        refine hcompute _ (recommendAux_miss hget) ?_
        intro k hk
        exact lookup_incrKey_ne st.store (key_ne_statsMisses hk)
      | some v =>
        have hB : B ∈ bookIds books := hinv B (by rw [hl]; rfl)
        have hget : get_cached_recommendations st B =
            (some v, { st with store := incrKey st.store .statsHits }) :=
          _get_cache_hit ha hf' hl
        cases hv : v.truthy with
        | true =>
          unfold recommend
          rw [recommendAux_hit hget hv]
          constructor
          · constructor
            · intro h; cases h
            · intro hB'; exact absurd hB hB'
          · intro h; cases h
        | false =>
          refine hcompute _ (recommendAux_falsy hget hv) ?_
          intro k hk
          exact lookup_incrKey_ne st.store (key_ne_statsHits hk)
  · have ha' : st.available = false := by
      cases hc : st.available
      · rfl
      · exact absurd hc ha
    have hget : get_cached_recommendations st B = (none, st) :=
      _get_cache_unavail _ ha'
    exact hcompute st (recommendAux_miss hget) (fun k _ => rfl)

/-- C2, witness: over the 5-book index with an empty cache, book 99 is
rejected with the 404 error and book 1 is not; the failed request writes no
cache entry. -/
theorem c2_witness :
    ((recommend exBooks5 exDist emptyAvailState 99).1 = .error .httpNotFound ↔
      (99 : Int) ∉ bookIds exBooks5) ∧
    ((recommend exBooks5 exDist emptyAvailState 99).1 = .error .httpNotFound →
      ∀ k, isStatsKey k = false →
        lookupStore (recommend exBooks5 exDist emptyAvailState 99).2.store k =
          lookupStore emptyAvailState.store k) :=
  c2_notfound_iff_and_no_write exBooks5 exDist emptyAvailState 99
    (fun i h => by simp [lookupStore, emptyAvailState] at h)

-- =====================================================
-- C3
-- =====================================================

/-- C3, confirmed: when the cache backend is unavailable, or every Redis
command raises, a cache read returns `None` exactly like a miss, a cache
write is a silent no-op returning `False`, and `GET /recommend/{B}` for a
valid book still succeeds with the freshly computed payload, leaving the
cache state untouched.  No cache-layer exception reaches the caller: the
`except` branches of `_get_cache`/`_set_cache` absorb them (the operations
are total in this model). -/
theorem c3_cache_down_still_serves (books : List Book) (d : Nat → Nat → ℚ)
    (st : CacheState) (B : Int) (recs : List PyVal) (k : CacheKey) (v : PyVal)
    (ttl : Int)
    (hun : st.available = false ∨ st.failing = true)
    (hcomp : get_recommendations books d B 10 = .ok recs) :
    _get_cache st k = (none, st) ∧
    _set_cache st k v ttl = (false, st) ∧
    recommend books d st B = (.ok (recResult B recs), st) := by
  have hg : ∀ k' : CacheKey, _get_cache st k' = (none, st) := by
    intro k'
    rcases hun with h | h
    · exact _get_cache_unavail _ h
    · cases ha : st.available with
      | false => exact _get_cache_unavail _ ha
      | true => exact _get_cache_failing _ ha h
  have hs : ∀ (k' : CacheKey) (v' : PyVal) (t' : Int), _set_cache st k' v' t' = (false, st) := by
    intro k' v' t'
    rcases hun with h | h
    · exact _set_cache_unavail _ _ _ h
    · cases ha : st.available with
      | false => exact _set_cache_unavail _ _ _ ha
      | true => exact _set_cache_failing _ _ _ ha h
  refine ⟨hg k, hs k v ttl, ?_⟩
  unfold recommend
  rw [recommendAux_miss (hg _), recommendCompute_ok hcomp]
  simp only [set_cached_recommendations, hs]

/-- C3, witness: with Redis down and an empty cache, `GET /recommend/1`
over the 12-book index returns the freshly computed payload. -/
theorem c3_witness :
    _get_cache cacheDownState (CacheKey.recommendations 1) = (none, cacheDownState) ∧
    _set_cache cacheDownState (CacheKey.recommendations 1) PyVal.pnull 0 =
      (false, cacheDownState) ∧
    recommend exBooks12 exDist cacheDownState 1 =
      (.ok (recResult 1 exRecs12), cacheDownState) :=
  c3_cache_down_still_serves exBooks12 exDist cacheDownState 1 exRecs12
    (CacheKey.recommendations 1) PyVal.pnull 0 (Or.inl rfl) rfl

-- =====================================================
-- C6
-- =====================================================

/-- C6, confirmed: with the cache backend available and healthy, a first
`recommend(B)` call on an uncached valid book computes the payload
(`computed = true`), stores it under `book:recommendations:B`, and a second
call within the TTL returns exactly the stored value without invoking the
recommendation computation again (`computed = false`).  The JSON
serialize/deserialize round trip is the identity on these payloads, so the
second response is verbatim the first. -/
theorem c6_second_call_cached (books : List Book) (d : Nat → Nat → ℚ)
    (st : CacheState) (B : Int) (recs : List PyVal)
    (ha : st.available = true) (hf : st.failing = false)
    (habsent : lookupStore st.store (.recommendations B) = none)
    (hcomp : get_recommendations books d B 10 = .ok recs) :
    (recommendAux books d st B).computed = true ∧
    (recommendAux books d st B).result = .ok (recResult B recs) ∧
    lookupStore (recommendAux books d st B).state.store (.recommendations B) =
      some (recResult B recs) ∧
    (recommendAux books d (recommendAux books d st B).state B).computed = false ∧
    (recommendAux books d (recommendAux books d st B).state B).result =
      .ok (recResult B recs) := by
  have hget : get_cached_recommendations st B =
      (none, { st with store := incrKey st.store .statsMisses }) :=
    _get_cache_miss ha hf habsent
  have h1 : recommendAux books d st B =
      { result := .ok (recResult B recs)
        state := (set_cached_recommendations
          { st with store := incrKey st.store .statsMisses } B (recResult B recs)).2
        computed := true } := by
    rw [recommendAux_miss hget, recommendCompute_ok hcomp]
  have hset : (set_cached_recommendations
      { st with store := incrKey st.store .statsMisses } B (recResult B recs)).2 =
      { st with store := setKey (incrKey st.store CacheKey.statsMisses) (CacheKey.recommendations B) (recResult B recs) } := by
    unfold set_cached_recommendations
    rw [_set_cache_ok _ _ _ (by exact ha) (by exact hf)]
  have hlook : lookupStore (recommendAux books d st B).state.store
      (.recommendations B) = some (recResult B recs) := by
    rw [h1]
    simp only [hset]
    exact lookup_setKey_self _ _ _
  have hget2 : get_cached_recommendations (recommendAux books d st B).state B =
      (some (recResult B recs),
        { (recommendAux books d st B).state with
            store := incrKey (recommendAux books d st B).state.store .statsHits }) := by
    apply _get_cache_hit _ _ hlook
    · rw [h1]; simp only [hset]; exact ha
    · rw [h1]; simp only [hset]; exact hf
  have htruthy : (recResult B recs).truthy = true := rfl
  have h2 : recommendAux books d (recommendAux books d st B).state B =
      { result := .ok (recResult B recs)
        state := { (recommendAux books d st B).state with
            store := incrKey (recommendAux books d st B).state.store .statsHits }
        computed := false } :=
    recommendAux_hit hget2 htruthy
  refine ⟨by rw [h1], by rw [h1], hlook, by rw [h2], by rw [h2]⟩

/-- C6, witness: book 1 over the 12-book index, starting from an empty
available cache. -/
theorem c6_witness :
    (recommendAux exBooks12 exDist emptyAvailState 1).computed = true ∧
    (recommendAux exBooks12 exDist emptyAvailState 1).result =
      .ok (recResult 1 exRecs12) ∧
    lookupStore (recommendAux exBooks12 exDist emptyAvailState 1).state.store
      (.recommendations 1) = some (recResult 1 exRecs12) ∧
    (recommendAux exBooks12 exDist
      (recommendAux exBooks12 exDist emptyAvailState 1).state 1).computed = false ∧
    (recommendAux exBooks12 exDist
      (recommendAux exBooks12 exDist emptyAvailState 1).state 1).result =
      .ok (recResult 1 exRecs12) :=
  c6_second_call_cached exBooks12 exDist emptyAvailState 1 exRecs12 rfl rfl rfl rfl


-- =====================================================
-- C4
-- =====================================================

/-- C4, counterexample: with the cache backend unavailable, a cached-read
attempt returns `None` but increments *neither* counter — `_get_cache`
returns before reaching the `incr` calls — whereas the claim requires the
miss counter to be incremented on backend unavailability. -/
theorem c4_counterexample :
    (_get_cache cacheDownState (CacheKey.recommendations 1)).1 = none ∧
    ¬ (countHits (_get_cache cacheDownState (CacheKey.recommendations 1)).2 =
        countHits cacheDownState + 1 ∨
       countMisses (_get_cache cacheDownState (CacheKey.recommendations 1)).2 =
        countMisses cacheDownState + 1) :=
  ⟨rfl, by decide⟩

/-- C4, amended: when the backend is available and no Redis command raises,
each cached-read attempt increments exactly one counter — hits if the key
is present, misses if it is absent; when the backend is unavailable or the
read raises, the state (hence both counters) is left unchanged. -/
theorem c4_amended (st : CacheState) (k : CacheKey)
    (hh : intCounter st.store .statsHits)
    (hm : intCounter st.store .statsMisses) :
    (st.available = true → st.failing = false →
      ((lookupStore st.store k).isSome = true →
        countHits (_get_cache st k).2 = countHits st + 1 ∧
        countMisses (_get_cache st k).2 = countMisses st) ∧
      ((lookupStore st.store k).isSome = false →
        countMisses (_get_cache st k).2 = countMisses st + 1 ∧
        countHits (_get_cache st k).2 = countHits st)) ∧
    (st.available = false ∨ st.failing = true → (_get_cache st k).2 = st) := by
  constructor
  · intro ha hf
    constructor
    · intro hsome
      obtain ⟨v, hv⟩ := Option.isSome_iff_exists.mp hsome
      rw [_get_cache_hit ha hf hv]
      constructor
      · exact counterVal_incrKey_self _ _ hh
      · exact counterVal_congr _ (lookup_incrKey_ne _ (by simp))
    · intro hnone
      have hv : lookupStore st.store k = none := by
        cases hl : lookupStore st.store k with
        | none => rfl
        | some v => rw [hl] at hnone; cases hnone
      rw [_get_cache_miss ha hf hv]
      constructor
      · exact counterVal_incrKey_self _ _ hm
      · exact counterVal_congr _ (lookup_incrKey_ne _ (by simp))
  · intro hun
    rcases hun with h | h
    · rw [_get_cache_unavail _ h]
    · cases ha : st.available with
      | false => rw [_get_cache_unavail _ ha]
      | true => rw [_get_cache_failing _ ha h]

/-- C4, witness: the empty available state, reading a recommendation key. -/
theorem c4_witness :
    (emptyAvailState.available = true → emptyAvailState.failing = false →
      ((lookupStore emptyAvailState.store (CacheKey.recommendations 1)).isSome = true →
        countHits (_get_cache emptyAvailState (CacheKey.recommendations 1)).2 =
          countHits emptyAvailState + 1 ∧
        countMisses (_get_cache emptyAvailState (CacheKey.recommendations 1)).2 =
          countMisses emptyAvailState) ∧
      ((lookupStore emptyAvailState.store (CacheKey.recommendations 1)).isSome = false →
        countMisses (_get_cache emptyAvailState (CacheKey.recommendations 1)).2 =
          countMisses emptyAvailState + 1 ∧
        countHits (_get_cache emptyAvailState (CacheKey.recommendations 1)).2 =
          countHits emptyAvailState)) ∧
    (emptyAvailState.available = false ∨ emptyAvailState.failing = true →
      (_get_cache emptyAvailState (CacheKey.recommendations 1)).2 = emptyAvailState) :=
  c4_amended emptyAvailState (CacheKey.recommendations 1)
    (fun v hv => by simp [lookupStore, emptyAvailState] at hv)
    (fun v hv => by simp [lookupStore, emptyAvailState] at hv)


-- =====================================================
-- C5
-- =====================================================

/-- A state whose counters read hits = 1, misses = 1. -/
def oneOneState : CacheState :=
  { available := true, failing := false,
    store := [(CacheKey.statsHits, PyVal.pint 1), (CacheKey.statsMisses, PyVal.pint 1)] }

/-- C5, counterexample: with hits = 1 and misses = 1 the stats endpoint
reports `hit_rate = 50.0` — a rounded percentage — not the fraction
`hits / (hits + misses) = 1/2` the claim states. -/
theorem c5_counterexample :
    get_cache_stats oneOneState = CacheStats.available 1 1 2 50 ∧ (50 : ℚ) ≠ 1 / 2 := by
  constructor
  · have h3 : pyRound2 (50 : ℚ) = 50 := by
      unfold pyRound2
      rw [show ((50 : ℚ) * 100) = ((5000 : ℤ) : ℚ) by norm_num, round_intCast]
      norm_num
    norm_num [get_cache_stats, oneOneState, counterVal, lookupStore, h3]
  · norm_num

/-- `n` consecutive `GET /recommend/{B}` requests from a given state. -/
def iterRecommend (books : List Book) (d : Nat → Nat → ℚ) (B : Int) :
    Nat → CacheState → CacheState
  | 0, st => st
  | n + 1, st => iterRecommend books d B n (recommendAux books d st B).state

/-- Once a truthy payload for `B` is cached, every further `recommend(B)`
call is a pure cache hit: each call adds 1 to the hit counter and leaves
the miss counter and the entry unchanged. -/
theorem iter_hits_phase (books : List Book) (d : Nat → Nat → ℚ) (B : Int)
    (v : PyVal) (hv : v.truthy = true) :
    ∀ (k : Nat) (st : CacheState),
      st.available = true → st.failing = false →
      lookupStore st.store (.recommendations B) = some v →
      intCounter st.store .statsHits →
      (iterRecommend books d B k st).available = true ∧
      (iterRecommend books d B k st).failing = false ∧
      lookupStore (iterRecommend books d B k st).store (.recommendations B) = some v ∧
      countHits (iterRecommend books d B k st) = countHits st + (k : Int) ∧
      countMisses (iterRecommend books d B k st) = countMisses st ∧
      intCounter (iterRecommend books d B k st).store .statsHits := by
  intro k
  induction k with
  | zero =>
    intro st ha hf hl hc
    exact ⟨ha, hf, hl, by simp [iterRecommend], rfl, hc⟩
  | succ n ih =>
    intro st ha hf hl hc
    have hget : get_cached_recommendations st B =
        (some v, { st with store := incrKey st.store .statsHits }) :=
      _get_cache_hit ha hf hl
    have hstep : iterRecommend books d B (n + 1) st =
        iterRecommend books d B n { st with store := incrKey st.store .statsHits } := by
      show iterRecommend books d B n (recommendAux books d st B).state = _
      rw [recommendAux_hit hget hv]
    have hl' : lookupStore (incrKey st.store .statsHits) (.recommendations B) = some v := by
      rw [lookup_incrKey_ne _ (by simp)]
      exact hl
    obtain ⟨ih1, ih2, ih3, ih4, ih5, ih6⟩ :=
      ih { st with store := incrKey st.store .statsHits } ha hf hl'
        (intCounter_incrKey_self _ _ hc)
    rw [hstep]
    refine ⟨ih1, ih2, ih3, ?_, ?_, ih6⟩
    · rw [ih4]
      have : countHits { st with store := incrKey st.store .statsHits } =
          countHits st + 1 := counterVal_incrKey_self _ _ hc
      rw [this]
      push_cast
      ring
    · rw [ih5]
      exact counterVal_congr _ (lookup_incrKey_ne _ (by simp))

/-- C5, amended: the reported `hit_rate` is the percentage
`round(hits / total * 100, 2)` (0.0 when both counters are zero), so `N`
sequential reads of the same previously-uncached key yield exactly 1 miss
and `N - 1` hits with reported `hit_rate = round(100 * (N-1) / N, 2)` —
not the fraction `(N-1)/N`. -/
theorem c5_amended (books : List Book) (d : Nat → Nat → ℚ) (B : Int)
    (recs : List PyVal) (N : Nat) (st : CacheState)
    (ha : st.available = true) (hf : st.failing = false)
    (hrecB : lookupStore st.store (.recommendations B) = none)
    (hhits : lookupStore st.store .statsHits = none)
    (hmisses : lookupStore st.store .statsMisses = none)
    (hcomp : get_recommendations books d B 10 = .ok recs)
    (hN : 1 ≤ N) :
    get_cache_stats st = .available 0 0 0 0 ∧
    countHits (iterRecommend books d B N st) = (N : Int) - 1 ∧
    countMisses (iterRecommend books d B N st) = 1 ∧
    get_cache_stats (iterRecommend books d B N st) =
      .available ((N : Int) - 1) 1 (N : Int)
        (pyRound2 ((((N : Int) - 1 : Int) : ℚ) / ((N : Int) : ℚ) * 100)) := by
  have hstats0 : get_cache_stats st = .available 0 0 0 0 := by
    simp [get_cache_stats, ha, hf, counterVal, hhits, hmisses]
  obtain ⟨M, rfl⟩ : ∃ M, N = M + 1 := ⟨N - 1, by omega⟩
  have hget : get_cached_recommendations st B =
      (none, { st with store := incrKey st.store .statsMisses }) :=
    _get_cache_miss ha hf hrecB
  have hset : (set_cached_recommendations
      { st with store := incrKey st.store .statsMisses } B (recResult B recs)).2 =
      { st with store := setKey (incrKey st.store CacheKey.statsMisses) (CacheKey.recommendations B) (recResult B recs) } := by
    unfold set_cached_recommendations
    rw [_set_cache_ok _ _ _ (by exact ha) (by exact hf)]
  have hstep : iterRecommend books d B (M + 1) st =
      iterRecommend books d B M
        { st with store := setKey (incrKey st.store CacheKey.statsMisses) (CacheKey.recommendations B) (recResult B recs) } := by
    show iterRecommend books d B M (recommendAux books d st B).state = _
    rw [recommendAux_miss hget, recommendCompute_ok hcomp]
    simp only [hset]
  set st1 : CacheState :=
    { st with store := setKey (incrKey st.store CacheKey.statsMisses) (CacheKey.recommendations B) (recResult B recs) } with hst1
  have hl1 : lookupStore st1.store (.recommendations B) = some (recResult B recs) :=
    lookup_setKey_self _ _ _
  have hhits1 : lookupStore st1.store .statsHits = none := by
    show lookupStore (setKey _ _ _) _ = none
    rw [lookup_setKey_ne _ _ (by simp), lookup_incrKey_ne _ (by simp)]
    exact hhits
  have hmisses1 : countMisses st1 = 1 := by
    show counterVal (setKey _ _ _) _ = 1
    unfold counterVal
    rw [lookup_setKey_ne _ _ (by simp)]
    have : lookupStore (incrKey st.store .statsMisses) .statsMisses =
        some (.pint 1) := by
      unfold incrKey
      rw [hmisses]
      exact lookup_setKey_self _ _ _
    rw [this]
  have hc1 : intCounter st1.store .statsHits := by
    intro v hv
    rw [hhits1] at hv
    cases hv
  obtain ⟨p1, p2, p3, p4, p5, p6⟩ :=
    iter_hits_phase books d B (recResult B recs) rfl M st1 ha hf hl1 hc1
  have hhitsN : countHits (iterRecommend books d B (M + 1) st) = (M : Int) := by
    rw [hstep, p4]
    have : countHits st1 = 0 := by
      unfold countHits counterVal
      rw [hhits1]
    rw [this]
    ring
  have hmissesN : countMisses (iterRecommend books d B (M + 1) st) = 1 := by
    rw [hstep, p5, hmisses1]
  refine ⟨hstats0, ?_, hmissesN, ?_⟩
  · rw [hhitsN]; push_cast; ring
  · rw [hstep] at hhitsN hmissesN ⊢
    have hstatsN : get_cache_stats (iterRecommend books d B M st1) =
        .available (countHits (iterRecommend books d B M st1))
          (countMisses (iterRecommend books d B M st1))
          (countHits (iterRecommend books d B M st1) +
            countMisses (iterRecommend books d B M st1))
          (if countHits (iterRecommend books d B M st1) +
              countMisses (iterRecommend books d B M st1) > 0 then
            pyRound2 (((countHits (iterRecommend books d B M st1) : ℚ)) /
              ((countHits (iterRecommend books d B M st1) +
                countMisses (iterRecommend books d B M st1) : Int) : ℚ) * 100)
          else 0) := by
      simp [get_cache_stats, p1, p2, countHits, countMisses]
    rw [hstatsN, hhitsN, hmissesN]
    have htot : (M : Int) + 1 > 0 := by positivity
    rw [if_pos htot]
    have e1 : ((M + 1 : ℕ) : Int) - 1 = (M : Int) := by push_cast; ring
    have e2 : ((M + 1 : ℕ) : Int) = (M : Int) + 1 := by push_cast; ring
    rw [e1, e2]

/-- C5, witness: three reads of the uncached book 1 over the 12-book index
from an empty available cache give 1 miss, 2 hits, and the reported
percentage hit rate. -/
theorem c5_witness :
    get_cache_stats emptyAvailState = .available 0 0 0 0 ∧
    countHits (iterRecommend exBooks12 exDist 1 3 emptyAvailState) = (3 : Int) - 1 ∧
    countMisses (iterRecommend exBooks12 exDist 1 3 emptyAvailState) = 1 ∧
    get_cache_stats (iterRecommend exBooks12 exDist 1 3 emptyAvailState) =
      .available ((3 : Int) - 1) 1 (3 : Int)
        (pyRound2 ((((3 : Int) - 1 : Int) : ℚ) / ((3 : Int) : ℚ) * 100)) :=
  c5_amended exBooks12 exDist 1 exRecs12 3 emptyAvailState rfl rfl rfl rfl rfl rfl
    (by omega)

-- =====================================================
-- C7
-- =====================================================

theorem warm_one_available (books : List Book) (d : Nat → Nat → ℚ)
    (st : CacheState) (bk : Book) :
    (warm_one books d st bk).available = st.available ∧
    (warm_one books d st bk).failing = st.failing := by
  unfold warm_one
  cases hc : get_recommendations books d bk.book_id 10 with
  | error e => exact ⟨rfl, rfl⟩
  | ok recs =>
    unfold set_cached_recommendations _set_cache
    by_cases ha : st.available = true
    · by_cases hf : st.failing = true
      · simp [ha, hf]
      · simp [ha, hf]
    · simp [Bool.not_eq_true] at ha
      simp [ha]

theorem warm_one_lookup_ne (books : List Book) (d : Nat → Nat → ℚ)
    (st : CacheState) (bk : Book) (k : CacheKey)
    (hk : k ≠ .recommendations bk.book_id) :
    lookupStore (warm_one books d st bk).store k = lookupStore st.store k := by
  unfold warm_one
  cases hc : get_recommendations books d bk.book_id 10 with
  | error e => rfl
  | ok recs =>
    unfold set_cached_recommendations _set_cache
    by_cases ha : st.available = true
    · by_cases hf : st.failing = true
      · simp [ha, hf]
      · simp [ha, hf]
        exact lookup_setKey_ne _ _ hk
    · simp [Bool.not_eq_true] at ha
      simp [ha]

theorem warm_one_lookup_self (books : List Book) (d : Nat → Nat → ℚ)
    (st : CacheState) (bk : Book) (recs : List PyVal)
    (ha : st.available = true) (hf : st.failing = false)
    (hcomp : get_recommendations books d bk.book_id 10 = .ok recs) :
    lookupStore (warm_one books d st bk).store (.recommendations bk.book_id) =
      some (recResult bk.book_id recs) := by
  have harm : warm_one books d st bk =
      (set_cached_recommendations st bk.book_id (recResult bk.book_id recs)).2 := by
    unfold warm_one
    rw [hcomp]
  rw [harm]
  unfold set_cached_recommendations
  rw [_set_cache_ok _ _ _ ha hf]
  exact lookup_setKey_self _ _ _

/-- Folding the warm loop over a list of target books with pairwise
distinct ids caches each successfully computed payload and touches no other
key. -/
theorem warm_fold (books : List Book) (d : Nat → Nat → ℚ) :
    ∀ (targets : List Book) (st : CacheState),
      st.available = true → st.failing = false →
      (targets.map (·.book_id)).Nodup →
      (∀ bk ∈ targets, ∀ recs,
        get_recommendations books d bk.book_id 10 = .ok recs →
        lookupStore (targets.foldl (warm_one books d) st).store
          (.recommendations bk.book_id) = some (recResult bk.book_id recs)) ∧
      (∀ k : CacheKey, (∀ bk ∈ targets, k ≠ .recommendations bk.book_id) →
        lookupStore (targets.foldl (warm_one books d) st).store k =
          lookupStore st.store k) := by
  intro targets
  induction targets with
  | nil => intro st _ _ _; exact ⟨fun bk h => absurd h (List.not_mem_nil bk), fun k _ => rfl⟩
  | cons b ts ih =>
    intro st ha hf hnd
    rw [List.map_cons, List.nodup_cons] at hnd
    obtain ⟨hbnot, hndts⟩ := hnd
    have ha' : (warm_one books d st b).available = true := by
      rw [(warm_one_available books d st b).1]; exact ha
    have hf' : (warm_one books d st b).failing = false := by
      rw [(warm_one_available books d st b).2]; exact hf
    obtain ⟨ihP, ihF⟩ := ih (warm_one books d st b) ha' hf' hndts
    have hfold : (b :: ts).foldl (warm_one books d) st =
        ts.foldl (warm_one books d) (warm_one books d st b) := rfl
    constructor
    · intro bk hbk recs hcomp
      rw [hfold]
      rcases List.mem_cons.mp hbk with rfl | hmem
      · have hself := warm_one_lookup_self books d st bk recs ha hf hcomp
        have hne : ∀ bk' ∈ ts, CacheKey.recommendations bk.book_id ≠
            .recommendations bk'.book_id := by
          intro bk' hbk' hc
          injection hc with hid
          exact hbnot (hid ▸ List.mem_map.mpr ⟨bk', hbk', rfl⟩)
        rw [ihF _ hne]
        exact hself
      · exact ihP bk hmem recs hcomp
    · intro k hk
      rw [hfold, ihF k (fun bk hbk => hk bk (List.mem_cons_of_mem _ hbk))]
      exact warm_one_lookup_ne books d st b k (hk b (List.mem_cons_self _ _))

/-- C7, confirmed: at startup, when the cache backend is available the
warmer runs over exactly `nlargest10 books` — the top 10 books by
`ratings_count` — computing each payload with the live engine
(`get_recommendations`) and storing it through the live cache-write path
(`set_cached_recommendations`), so each successfully computed book ends up
cached with exactly the payload a live request would store; a failed
computation for one book leaves its entry and the loop for the other books
untouched (no abort), and no other key is modified.  When the backend is
unavailable warming is skipped entirely (state unchanged). -/
theorem c7_warming (books : List Book) (d : Nat → Nat → ℚ) (st : CacheState)
    (hids : (bookIds books).Nodup) (hf : st.failing = false) :
    (st.available = false → startup_event books d st = st) ∧
    (st.available = true →
      (∀ bk ∈ nlargest10 books, ∀ recs,
        get_recommendations books d bk.book_id 10 = .ok recs →
        lookupStore (startup_event books d st).store (.recommendations bk.book_id) =
          some (recResult bk.book_id recs)) ∧
      (∀ k : CacheKey, (∀ bk ∈ nlargest10 books, k ≠ .recommendations bk.book_id) →
        lookupStore (startup_event books d st).store k = lookupStore st.store k)) := by
  constructor
  · intro ha
    unfold startup_event
    rw [ha]
    simp
  · intro ha
    have hnd : ((nlargest10 books).map (·.book_id)).Nodup := by
      have hperm : List.Perm (books.insertionSort byRatingsCount) books :=
        List.perm_insertionSort _ _
      have hpermmap : List.Perm ((books.insertionSort byRatingsCount).map (·.book_id))
          (books.map (·.book_id)) := hperm.map _
      have hsortnd : ((books.insertionSort byRatingsCount).map (·.book_id)).Nodup :=
        hpermmap.nodup_iff.mpr hids
      have hsub : List.Sublist ((nlargest10 books).map (·.book_id))
          ((books.insertionSort byRatingsCount).map (·.book_id)) := by
        unfold nlargest10
        exact List.Sublist.map _ (List.take_sublist _ _)
      exact hsortnd.sublist hsub
    have hrun : startup_event books d st =
        (nlargest10 books).foldl (warm_one books d) st := by
      unfold startup_event
      rw [ha]
      simp
    obtain ⟨hP, hF⟩ := warm_fold books d (nlargest10 books) st ha hf hnd
    rw [hrun]
    exact ⟨hP, hF⟩

/-- C7, witness: warming over the 12-book corpus from an empty available
state (the instantiated guarantees for both the available and the
unavailable branch). -/
theorem c7_witness :
    (emptyAvailState.available = false →
      startup_event exBooks12 exDist emptyAvailState = emptyAvailState) ∧
    (emptyAvailState.available = true →
      (∀ bk ∈ nlargest10 exBooks12, ∀ recs,
        get_recommendations exBooks12 exDist bk.book_id 10 = .ok recs →
        lookupStore (startup_event exBooks12 exDist emptyAvailState).store
          (.recommendations bk.book_id) = some (recResult bk.book_id recs)) ∧
      (∀ k : CacheKey, (∀ bk ∈ nlargest10 exBooks12, k ≠ .recommendations bk.book_id) →
        lookupStore (startup_event exBooks12 exDist emptyAvailState).store k =
          lookupStore emptyAvailState.store k)) :=
  c7_warming exBooks12 exDist emptyAvailState (by decide) rfl

-- =====================================================
-- C8
-- =====================================================

/-- C8, confirmed: a successful administrative clear (`FLUSHDB`) drops
every key of the cache database in one action — the stats counters live in
the same database, so both are reset with the entries — and an immediately
following stats call reports hits = 0, misses = 0, hit_rate = 0.0. -/
theorem c8_clear_resets_all (st : CacheState)
    (ha : st.available = true) (hf : st.failing = false) :
    (clear_all_cache st).1 = true ∧
    (∀ k : CacheKey, lookupStore (clear_all_cache st).2.store k = none) ∧
    get_cache_stats (clear_all_cache st).2 = .available 0 0 0 0 := by
  have hc : clear_all_cache st = (true, { st with store := [] }) := by
    unfold clear_all_cache
    simp [ha, hf]
  rw [hc]
  refine ⟨rfl, fun k => rfl, ?_⟩
  simp [get_cache_stats, ha, hf, counterVal, lookupStore]

/-- C8, witness: clearing a populated cache with nonzero counters. -/
theorem c8_witness :
    (clear_all_cache oneOneState).1 = true ∧
    (∀ k : CacheKey, lookupStore (clear_all_cache oneOneState).2.store k = none) ∧
    get_cache_stats (clear_all_cache oneOneState).2 = .available 0 0 0 0 :=
  c8_clear_resets_all oneOneState rfl rfl

-- =====================================================
-- C9
-- =====================================================

/-- An available state whose cache holds a book-list snapshot. -/
def snapState : CacheState :=
  { available := true, failing := false,
    store := [(CacheKey.booksList, PyVal.plist [PyVal.pint 1])] }

/-- A request body carrying all five required fields. -/
def completeBook : List (String × PyVal) :=
  [("title", .pstr "t"), ("authors", .pstr "a"),
   ("original_publication_year", .pint 2000), ("average_rating", .pnum 4),
   ("image_url", .pstr "u")]

/-- C9, counterexample: adding a book succeeds but performs no cache
operation whatsoever — it only appends a row to `books.csv` — so the
cached book-list snapshot survives the mutation, contradicting the claim
that every catalog mutation drops it. -/
theorem c9_counterexample :
    add_book snapState (some []) completeBook =
      .ok (.pdict [("message", .pstr "Book processed for ML CSV")], snapState,
        [[PyVal.pstr "t", PyVal.pstr "a", PyVal.pint 2000, PyVal.pnum 4,
          PyVal.pstr "u"]]) ∧
    lookupStore snapState.store CacheKey.booksList =
      some (PyVal.plist [PyVal.pint 1]) :=
  ⟨rfl, rfl⟩

/-- C9, amended: a *successful* delete or update of a book drops the
cached book-list snapshot and leaves every other cache key — the per-book
recommendation entries in particular — untouched (given an available,
healthy backend); adding a book never touches the cache at all (it only
appends to the training CSV). -/
theorem c9_amended (st : CacheState) (db : List DbBook) (book_id : Int)
    (payload book : List (String × PyVal)) (file : Option (List (List PyVal)))
    (ha : st.available = true) (hf : st.failing = false) :
    (∀ res, add_book st file book = .ok res → res.2.1 = st) ∧
    (∀ msg st' db', delete_book st db book_id = .ok (msg, st', db') →
      lookupStore st'.store .booksList = none ∧
      ∀ k : CacheKey, k ≠ .booksList →
        lookupStore st'.store k = lookupStore st.store k) ∧
    (∀ msg st' db', update_book st db book_id payload = .ok (msg, st', db') →
      lookupStore st'.store .booksList = none ∧
      ∀ k : CacheKey, k ≠ .booksList →
        lookupStore st'.store k = lookupStore st.store k) := by
  have hdel : (invalidate_books_list st).2 =
      { st with store := eraseKey st.store .booksList } := by
    unfold invalidate_books_list
    rw [_delete_cache_ok _ ha hf]
  refine ⟨?_, ?_, ?_⟩
  · intro res h
    unfold add_book at h
    cases hfind : REQUIRED_FIELDS.find? (fun f => (book.lookup f).isNone) with
    | some f => rw [hfind] at h; cases h
    | none =>
      rw [hfind] at h
      have := (Except.ok.inj h).symm
      rw [this]
  · intro msg st' db' h
    unfold delete_book at h
    by_cases hm : (db.filter (fun r => decide (r.id = book_id))).isEmpty = true
    · rw [if_pos hm] at h; cases h
    · rw [if_neg hm] at h
      have hst : (invalidate_books_list st).2 = st' :=
        congrArg (fun t => t.2.1) (Except.ok.inj h)
      rw [← hst, hdel]
      exact ⟨lookup_eraseKey_self _ _, fun k hk => lookup_eraseKey_ne _ hk⟩
  · intro msg st' db' h
    unfold update_book at h
    cases hfind : REQUIRED_FIELDS.find? (fun f => (payload.lookup f).isNone) with
    | some f => rw [hfind] at h; cases h
    | none =>
      rw [hfind] at h
      by_cases hm : (db.filter (fun r => decide (r.id = book_id))).isEmpty = true
      · rw [if_pos hm] at h; cases h
      · rw [if_neg hm] at h
        have hst : (invalidate_books_list st).2 = st' :=
          congrArg (fun t => t.2.1) (Except.ok.inj h)
        rw [← hst, hdel]
        exact ⟨lookup_eraseKey_self _ _, fun k hk => lookup_eraseKey_ne _ hk⟩

/-- A one-row relational catalog. -/
def exDb : List DbBook := [{ id := 1, fields := [("title", PyVal.pstr "x")] }]

/-- C9, witness: the amended guarantees instantiated at a cached snapshot
state, a one-row catalog, and a complete request body. -/
theorem c9_witness :
    (∀ res, add_book snapState (some []) completeBook = .ok res →
      res.2.1 = snapState) ∧
    (∀ msg st' db', delete_book snapState exDb 1 = .ok (msg, st', db') →
      lookupStore st'.store .booksList = none ∧
      ∀ k : CacheKey, k ≠ .booksList →
        lookupStore st'.store k = lookupStore snapState.store k) ∧
    (∀ msg st' db', update_book snapState exDb 1 completeBook = .ok (msg, st', db') →
      lookupStore st'.store .booksList = none ∧
      ∀ k : CacheKey, k ≠ .booksList →
        lookupStore st'.store k = lookupStore snapState.store k) :=
  c9_amended snapState exDb 1 completeBook completeBook (some []) rfl rfl

-- =====================================================
-- C10
-- =====================================================

/-- C10, confirmed: when the cached book-list snapshot is the empty list,
`GET /books` counts a cache *hit* (the Redis reply is the non-empty string
`"[]"`, so `_get_cache` increments the hit counter), yet `if cached_books:`
sees the falsy deserialized `[]` and falls through: the database is queried,
the fresh result is returned and rewritten to the cache.  The hit counter
thus counts reads that were not served from cache. -/
theorem c10_falsy_snapshot_hit_recompute (st : CacheState) (db : List DbBook)
    (ha : st.available = true) (hf : st.failing = false)
    (hcached : lookupStore st.store .booksList = some (.plist []))
    (hh : intCounter st.store .statsHits) :
    (fetch_books st db).1 = .plist (db.map dbRowToPy) ∧
    countHits (fetch_books st db).2 = countHits st + 1 ∧
    countMisses (fetch_books st db).2 = countMisses st ∧
    lookupStore (fetch_books st db).2.store .booksList =
      some (.plist (db.map dbRowToPy)) := by
  have hget : get_cached_books st =
      (some (.plist []), { st with store := incrKey st.store .statsHits }) := by
    unfold get_cached_books
    exact _get_cache_hit ha hf hcached
  have hrun : fetch_books st db =
      (PyVal.plist (db.map dbRowToPy),
        (set_cached_books { st with store := incrKey st.store .statsHits }
          (PyVal.plist (db.map dbRowToPy))).2) := by
    unfold fetch_books
    rw [hget]
    simp [PyVal.truthy]
  have hset : (set_cached_books { st with store := incrKey st.store .statsHits }
      (PyVal.plist (db.map dbRowToPy))).2 =
      { st with store := setKey (incrKey st.store CacheKey.statsHits) CacheKey.booksList (PyVal.plist (db.map dbRowToPy)) } := by
    unfold set_cached_books
    rw [_set_cache_ok _ _ _ (by exact ha) (by exact hf)]
  rw [hrun, hset]
  have h1 : lookupStore (setKey (incrKey st.store CacheKey.statsHits)
      CacheKey.booksList (PyVal.plist (db.map dbRowToPy))) CacheKey.statsHits =
      lookupStore (incrKey st.store CacheKey.statsHits) CacheKey.statsHits :=
    lookup_setKey_ne _ _ (by simp)
  have h2 : lookupStore (setKey (incrKey st.store CacheKey.statsHits)
      CacheKey.booksList (PyVal.plist (db.map dbRowToPy))) CacheKey.statsMisses =
      lookupStore st.store CacheKey.statsMisses := by
    rw [lookup_setKey_ne _ _ (by simp), lookup_incrKey_ne _ (by simp)]
  refine ⟨rfl, ?_, ?_, lookup_setKey_self _ _ _⟩
  · exact (counterVal_congr _ h1).trans (counterVal_incrKey_self _ _ hh)
  · exact counterVal_congr _ h2

/-- A state whose cached book-list snapshot is the empty list. -/
def emptySnapState : CacheState :=
  { available := true, failing := false,
    store := [(CacheKey.booksList, PyVal.plist [])] }

/-- C10, witness: the empty-snapshot state and the one-row catalog. -/
theorem c10_witness :
    (fetch_books emptySnapState exDb).1 = .plist (exDb.map dbRowToPy) ∧
    countHits (fetch_books emptySnapState exDb).2 = countHits emptySnapState + 1 ∧
    countMisses (fetch_books emptySnapState exDb).2 = countMisses emptySnapState ∧
    lookupStore (fetch_books emptySnapState exDb).2.store .booksList =
      some (.plist (exDb.map dbRowToPy)) :=
  c10_falsy_snapshot_hit_recompute emptySnapState exDb rfl rfl rfl
    (fun v hv => by simp [lookupStore, emptySnapState] at hv)

end BookRec
